import Mathlib

/-!
Shallow embedding of the dual-view influence-filter / batch weight-edit core of
qvertexblender.py (class QInfluenceFilterModel and class QVertexBlender).
Each namespace below embeds one cluster of source methods; every definition
carries the line numbers of the Python code it is translated from.
-/

namespace VertexBlender

namespace Filter

/-- State of one QInfluenceFilterModel instance (qvertexblender.py, lines 64-70):
the private lists _visible, _selectedRows, _overrides, _activeInfluences and
_inactiveInfluences.  Row ids are the zero-based Qt row indices, modelled as
naturals.  The source model is represented by the list of the column-0 labels,
indexed by row. -/
structure FilterState where
  visible : List Nat
  selectedRows : List Nat
  overrides : List Nat
  activeInfluences : List Nat
  inactiveInfluences : List Nat
  deriving DecidableEq

/-- Method isItemNull (lines 380-396): a row is null when its column-0 item text
is empty; an invalid index (row out of range) also counts as null.  getD returns
the empty string out of range, matching that. -/
def isItemNull (labels : List String) (row : Nat) : Bool :=
  labels.getD row "" = ""

/-- Method filterAcceptsRow (lines 72-115), one row of a filter pass: a null row
is appended to _inactiveInfluences and rejected; otherwise a row in _visible or
_selectedRows is appended to _activeInfluences and accepted; otherwise a row in
_overrides is appended to _activeInfluences, removed from _overrides and
accepted; otherwise the row is appended to _inactiveInfluences and rejected.
The returned pair is (accepted, updated state). -/
def filterAcceptsRow (labels : List String) (row : Nat) (s : FilterState) :
    Bool × FilterState :=
  if isItemNull labels row then
    (false, { s with inactiveInfluences := s.inactiveInfluences ++ [row] })
  else if row ∈ s.visible ∨ row ∈ s.selectedRows then
    (true, { s with activeInfluences := s.activeInfluences ++ [row] })
  else if row ∈ s.overrides then
    (true, { s with activeInfluences := s.activeInfluences ++ [row],
                    overrides := s.overrides.erase row })
  else
    (false, { s with inactiveInfluences := s.inactiveInfluences ++ [row] })

/-- Sequential evaluation of filterAcceptsRow over a list of rows, threading the
state, as Qt does for every source row during one invalidation. -/
def runFilterRows (labels : List String) : List Nat → FilterState → FilterState
  | [], s => s
  | r :: rs, s => runFilterRows labels rs (filterAcceptsRow labels r s).2

/-- Method invalidateFilter (lines 117-131) followed by the framework pass: the
private lists _activeInfluences and _inactiveInfluences are reset to empty and
then filterAcceptsRow is evaluated on every source row 0..n-1 in row order. -/
def invalidateFilter (labels : List String) (s : FilterState) : FilterState :=
  runFilterRows labels (List.range labels.length)
    { s with activeInfluences := [], inactiveInfluences := [] }

/-- Acceptance predicate as the spec states it (spec section 4.1): a row is
accepted iff its label is non-empty and it lies in visible, selectedRows or
overrides.  This is the spec-side contract that the source-side pass is
compared against. -/
def acceptedSpec (labels : List String) (s : FilterState) (row : Nat) : Bool :=
  !isItemNull labels row &&
    (decide (row ∈ s.visible) || decide (row ∈ s.selectedRows) ||
      decide (row ∈ s.overrides))

/-- Condition under which one evaluation of filterAcceptsRow consumes the
override of the evaluated row: the row is not null, is in neither visible nor
selectedRows, and is in overrides (the third branch of the method). -/
def overrideConsumedHere (labels : List String) (s : FilterState) (row : Nat) :
    Bool :=
  !isItemNull labels row && !decide (row ∈ s.visible) &&
    !decide (row ∈ s.selectedRows) && decide (row ∈ s.overrides)

/-- Normal form of one filterAcceptsRow step: acceptance agrees with the spec
predicate, the accepted row is appended to the active list, the rejected row to
the inactive list, and the override list loses the row exactly when the
override branch fires. -/
theorem filterAcceptsRow_eval (labels : List String) (row : Nat)
    (s : FilterState) :
    filterAcceptsRow labels row s =
      (acceptedSpec labels s row,
        { s with
            activeInfluences :=
              s.activeInfluences ++
                (if acceptedSpec labels s row then [row] else []),
            inactiveInfluences :=
              s.inactiveInfluences ++
                (if acceptedSpec labels s row then [] else [row]),
            overrides :=
              if overrideConsumedHere labels s row then s.overrides.erase row
              else s.overrides }) := by
  by_cases h1 : isItemNull labels row = true
  · simp [filterAcceptsRow, acceptedSpec, overrideConsumedHere, h1]
  · by_cases h2 : row ∈ s.visible <;> by_cases h3 : row ∈ s.selectedRows <;>
      by_cases h4 : row ∈ s.overrides <;>
        simp [filterAcceptsRow, acceptedSpec, overrideConsumedHere, h1, h2, h3, h4]

/-- One filter step never touches the visible or selectedRows lists. -/
theorem filterAcceptsRow_frame (labels : List String) (row : Nat)
    (s : FilterState) :
    (filterAcceptsRow labels row s).2.visible = s.visible ∧
    (filterAcceptsRow labels row s).2.selectedRows = s.selectedRows := by
  rw [filterAcceptsRow_eval]
  exact ⟨rfl, rfl⟩

/-- Membership in overrides is preserved by a step for every row other than the
one evaluated (the step can only erase the evaluated row). -/
theorem filterAcceptsRow_overrides_mem (labels : List String) (row q : Nat)
    (s : FilterState) (hne : q ≠ row) :
    (q ∈ (filterAcceptsRow labels row s).2.overrides ↔ q ∈ s.overrides) := by
  rw [filterAcceptsRow_eval]
  by_cases hc : overrideConsumedHere labels s row = true
  · simp only [hc, if_pos]
    exact List.mem_erase_of_ne hne
  · simp only [hc]
    simp

/-- The spec acceptance predicate of any row other than the evaluated one is
unchanged by a step. -/
theorem acceptedSpec_step (labels : List String) (row q : Nat) (s : FilterState)
    (hne : q ≠ row) :
    acceptedSpec labels (filterAcceptsRow labels row s).2 q =
      acceptedSpec labels s q := by
  have hv := (filterAcceptsRow_frame labels row s).1
  have hs := (filterAcceptsRow_frame labels row s).2
  have ho := filterAcceptsRow_overrides_mem labels row q s hne
  unfold acceptedSpec
  rw [hv, hs]
  congr 1
  congr 1
  exact decide_eq_decide.mpr ho

/-- Running the pass over pairwise-distinct rows appends exactly the accepted
rows to the active list and exactly the rejected rows to the inactive list, in
row order, where acceptance is the spec predicate at the initial state. -/
theorem runFilterRows_partition (labels : List String) :
    ∀ (rs : List Nat) (s : FilterState), rs.Nodup →
      (runFilterRows labels rs s).activeInfluences =
        s.activeInfluences ++ rs.filter (fun r => acceptedSpec labels s r) ∧
      (runFilterRows labels rs s).inactiveInfluences =
        s.inactiveInfluences ++
          rs.filter (fun r => !acceptedSpec labels s r) := by
  intro rs
  induction rs with
  | nil => intro s _; simp [runFilterRows]
  | cons r rs ih =>
      intro s hnd
      have hr : r ∉ rs := (List.nodup_cons.mp hnd).1
      have hnd' : rs.Nodup := (List.nodup_cons.mp hnd).2
      have hcong :
          rs.filter (fun q => acceptedSpec labels (filterAcceptsRow labels r s).2 q) =
            rs.filter (fun q => acceptedSpec labels s q) := by
        refine List.filter_congr ?_
        intro q hq
        exact acceptedSpec_step labels r q s (fun h => hr (h ▸ hq))
      have hcong' :
          rs.filter (fun q => !acceptedSpec labels (filterAcceptsRow labels r s).2 q) =
            rs.filter (fun q => !acceptedSpec labels s q) := by
        refine List.filter_congr ?_
        intro q hq
        rw [acceptedSpec_step labels r q s (fun h => hr (h ▸ hq))]
      have := ih (filterAcceptsRow labels r s).2 hnd'
      constructor
      · rw [runFilterRows, this.1, hcong, filterAcceptsRow_eval]
        by_cases ha : acceptedSpec labels s r = true <;>
          simp [ha, List.filter_cons]
      · rw [runFilterRows, this.2, hcong', filterAcceptsRow_eval]
        by_cases ha : acceptedSpec labels s r = true <;>
          simp [ha, List.filter_cons]

/-- Unfolding of the override-consumption condition into its four clauses. -/
theorem overrideConsumedHere_iff (labels : List String) (s : FilterState)
    (row : Nat) :
    overrideConsumedHere labels s row = true ↔
      (isItemNull labels row = false ∧ row ∉ s.visible ∧
        row ∉ s.selectedRows ∧ row ∈ s.overrides) := by
  simp [overrideConsumedHere, Bool.not_eq_true', and_assoc]

/-- One filter step keeps the override list duplicate-free. -/
theorem filterAcceptsRow_overrides_nodup (labels : List String) (row : Nat)
    (s : FilterState) (hov : s.overrides.Nodup) :
    (filterAcceptsRow labels row s).2.overrides.Nodup := by
  rw [filterAcceptsRow_eval]
  by_cases hc : overrideConsumedHere labels s row = true
  · simp only [hc, if_pos]
    exact hov.erase row
  · simp only [hc]
    simpa using hov

/-- After running the pass over pairwise-distinct rows, a row q remains in the
override list iff it was there before and was not consumed, i.e. it is not a
processed, non-null row lying outside both visible and selectedRows. -/
theorem runFilterRows_overrides_mem (labels : List String) :
    ∀ (rs : List Nat) (s : FilterState), rs.Nodup → s.overrides.Nodup →
      ∀ q : Nat,
      (q ∈ (runFilterRows labels rs s).overrides ↔
        q ∈ s.overrides ∧
          ¬ (q ∈ rs ∧ isItemNull labels q = false ∧ q ∉ s.visible ∧
              q ∉ s.selectedRows)) := by
  intro rs
  induction rs with
  | nil => intro s _ _ q; simp [runFilterRows]
  | cons r rs ih =>
    intro s hnd hov q
    have hr : r ∉ rs := (List.nodup_cons.mp hnd).1
    have hnd' := (List.nodup_cons.mp hnd).2
    have hov' := filterAcceptsRow_overrides_nodup labels r s hov
    have hframe := filterAcceptsRow_frame labels r s
    have ihq := ih (filterAcceptsRow labels r s).2 hnd' hov' q
    rw [runFilterRows, ihq, hframe.1, hframe.2]
    by_cases hqr : q = r
    · subst hqr
      by_cases hc : overrideConsumedHere labels s q = true
      · have hcc := (overrideConsumedHere_iff labels s q).mp hc
        have hnot : q ∉ (filterAcceptsRow labels q s).2.overrides := by
          rw [filterAcceptsRow_eval]
          simp only [hc, if_pos]
          intro hmem
          exact absurd rfl ((hov.mem_erase_iff.mp hmem).1)
        constructor
        · intro h; exact absurd h.1 hnot
        · rintro ⟨hmem, hno⟩
          exact absurd ⟨List.mem_cons_self q rs, hcc.1, hcc.2.1, hcc.2.2.1⟩ hno
      · have hsame : (filterAcceptsRow labels q s).2.overrides = s.overrides := by
          rw [filterAcceptsRow_eval]
          simp [hc]
        rw [hsame]
        constructor
        · rintro ⟨hmem, -⟩
          refine ⟨hmem, ?_⟩
          rintro ⟨-, hC⟩
          exact hc ((overrideConsumedHere_iff labels s q).mpr
            ⟨hC.1, hC.2.1, hC.2.2, hmem⟩)
        · rintro ⟨hmem, -⟩
          refine ⟨hmem, ?_⟩
          rintro ⟨hin, -⟩
          exact hr hin
    · rw [filterAcceptsRow_overrides_mem labels r q s hqr]
      have : (q ∈ r :: rs) ↔ q ∈ rs := by simp [List.mem_cons, hqr]
      rw [this]

/-- C1: in one full filter pass, every processed row is accepted iff its label
is non-empty and it lies in visible, selectedRows or overrides; the pass
appends exactly the accepted rows to activeRows and exactly the rejected rows
(the empty-label rows among them, whatever visible and overrides hold) to
inactiveRows, both reset at the start of the pass and filled in row order. -/
theorem filter_pass_partition (labels : List String) (s : FilterState) :
    (∀ row : Nat, (filterAcceptsRow labels row s).1 = acceptedSpec labels s row) ∧
    (invalidateFilter labels s).activeInfluences =
      (List.range labels.length).filter (fun r => acceptedSpec labels s r) ∧
    (invalidateFilter labels s).inactiveInfluences =
      (List.range labels.length).filter (fun r => !acceptedSpec labels s r) := by
  refine ⟨fun row => by rw [filterAcceptsRow_eval], ?_, ?_⟩
  · have h := (runFilterRows_partition labels (List.range labels.length)
      { s with activeInfluences := [], inactiveInfluences := [] }
      (List.nodup_range _)).1
    simpa [invalidateFilter] using h
  · have h := (runFilterRows_partition labels (List.range labels.length)
      { s with activeInfluences := [], inactiveInfluences := [] }
      (List.nodup_range _)).2
    simpa [invalidateFilter] using h

/-- C2 counterexample: with five non-null rows, visible = [0, 2, 4],
selectedRows = [2] and overrides = [4], the pass does yield
activeRows = [0, 2, 4], but row 4 is accepted through the visible branch, so
its override is never consumed: overrides after the pass is [4], not empty. -/
theorem override_scenario_counterexample :
    (invalidateFilter ["a", "b", "c", "d", "e"]
        ⟨[0, 2, 4], [2], [4], [], []⟩).activeInfluences = [0, 2, 4] ∧
    (invalidateFilter ["a", "b", "c", "d", "e"]
        ⟨[0, 2, 4], [2], [4], [], []⟩).overrides = [4] ∧
    ([4] : List Nat) ≠ [] := by
  refine ⟨by rfl, by rfl, by simp⟩

/-- C2 (amended): a row q added via setOverrides is gone from overrides after
one full pass iff it was consumed there, i.e. q is a processed row (q below the
row count) whose label is non-empty and which lies in neither visible nor
selectedRows; any other override row - in particular one also present in
visible or selectedRows, as in the visible = [0, 2, 4] scenario - survives the
pass. -/
theorem override_one_shot_amended (labels : List String) (s : FilterState)
    (hov : s.overrides.Nodup) (q : Nat) :
    q ∈ (invalidateFilter labels s).overrides ↔
      q ∈ s.overrides ∧
        ¬ (q < labels.length ∧ isItemNull labels q = false ∧ q ∉ s.visible ∧
            q ∉ s.selectedRows) := by
  have h := runFilterRows_overrides_mem labels (List.range labels.length)
    { s with activeInfluences := [], inactiveInfluences := [] }
    (List.nodup_range _) hov q
  simpa [invalidateFilter, List.mem_range] using h

/-- Witness for the amended C2 theorem at a concrete input: a lone override on
a non-null row outside visible and selectedRows is consumed by the pass. -/
theorem override_one_shot_amended_witness :
    0 ∉ (invalidateFilter ["a"] ⟨[], [], [0], [], []⟩).overrides := by
  intro h
  exact ((override_one_shot_amended ["a"] ⟨[], [], [0], [], []⟩
    (by simp) 0).mp h).2 (by simp [isItemNull])

/-- Method setOverrides (lines 272-289) at state level: the override list is
replaced and the filter is invalidated, which reruns the full pass.  The
isinstance check of the source is trivially satisfied here because rows are
naturals by construction. -/
def setOverrides (labels : List String) (s : FilterState) (rows : List Nat) :
    FilterState :=
  invalidateFilter labels { s with overrides := rows }

/-- Method isRowHidden (lines 398-406): membership in _inactiveInfluences. -/
def isRowHidden (s : FilterState) (row : Nat) : Bool :=
  decide (row ∈ s.inactiveInfluences)

/-- Observable actions selectInfluences performs on the selection model and the
view: a clear-and-replace selection of some rows, a scroll to a row, or a
scroll to the top. -/
inductive ViewEffect where
  | clearAndSelect (rows : List Nat)
  | scrollTo (row : Nat)
  | scrollToTop
  deriving DecidableEq

/-- Method selectInfluences (lines 469-559): the hidden requested rows are
granted one-shot overrides (setOverrides plus re-filter); a non-empty request
is applied as one merged clear-and-replace selection followed by a scroll to
the first requested row; an empty request falls back to selecting the first
active influence and scrolling to the top, and does nothing when there is no
active influence.  The result pairs the final state with the list of view
effects in the order they are issued. -/
def selectInfluences (labels : List String) (s : FilterState)
    (rows : List Nat) : FilterState × List ViewEffect :=
  let hidden := rows.filter (fun r => isRowHidden s r)
  let s1 := if hidden.length > 0 then setOverrides labels s hidden else s
  if rows.length > 0 then
    (s1, [ViewEffect.clearAndSelect rows, ViewEffect.scrollTo rows.headI])
  else
    match s1.activeInfluences with
    | [] => (s1, [])
    | a :: _ => (s1, [ViewEffect.clearAndSelect [a], ViewEffect.scrollToTop])

/-- C7: selectInfluences with an empty row list selects the first entry of
activeRows and scrolls to the top when activeRows is non-empty, and leaves the
state untouched while issuing no selection-model or view effect at all when
activeRows is empty. -/
theorem selectInfluences_empty_fallback (labels : List String)
    (s : FilterState) :
    (s.activeInfluences ≠ [] →
      selectInfluences labels s [] =
        (s, [ViewEffect.clearAndSelect [s.activeInfluences.headI],
             ViewEffect.scrollToTop])) ∧
    (s.activeInfluences = [] → selectInfluences labels s [] = (s, [])) := by
  constructor
  · intro h
    unfold selectInfluences
    cases hact : s.activeInfluences with
    | nil => exact absurd hact h
    | cons a rest => simp [hact, List.headI]
  · intro h
    unfold selectInfluences
    simp [h]

/-- Witness for the C7 theorem at concrete inputs: the fallback selection fires
on a state with activeRows = [3, 5] and the call is a no-op on a state with
empty activeRows. -/
theorem selectInfluences_empty_fallback_witness :
    selectInfluences ["a", "b"] ⟨[], [], [], [3, 5], []⟩ [] =
      (⟨[], [], [], [3, 5], []⟩,
        [ViewEffect.clearAndSelect [3], ViewEffect.scrollToTop]) ∧
    selectInfluences ["a", "b"] ⟨[7], [], [], [], [1]⟩ [] =
      (⟨[7], [], [], [], [1]⟩, []) :=
  ⟨(selectInfluences_empty_fallback ["a", "b"] ⟨[], [], [], [3, 5], []⟩).1
      (by simp),
   (selectInfluences_empty_fallback ["a", "b"] ⟨[7], [], [], [], [1]⟩).2 rfl⟩

end Filter

namespace Py

/-- Python runtime values as far as the setter type checks can tell them
apart: integers, booleans and strings. -/
inductive PyVal where
  | intVal (n : Int)
  | boolVal (b : Bool)
  | strVal (s : String)
  deriving DecidableEq

/-- Semantics of the isinstance(x, int) test used by the setters: Python bool
is a subclass of int, so booleans pass the test alongside integers. -/
def PyVal.isInt : PyVal → Bool
  | PyVal.intVal _ => true
  | PyVal.boolVal _ => true
  | PyVal.strVal _ => false

/-- Method setVisible (lines 223-241), argument-validation level: the call
fails with a TypeError unless every positional argument passes
isinstance(x, int); on success the argument tuple itself is stored in
_visible.  The subsequent invalidateFilter is covered by the Filter model. -/
def setVisible (args : List PyVal) : Except String (List PyVal) :=
  if args.all PyVal.isInt then Except.ok args
  else Except.error "setVisible() expects a sequence of integers!"

/-- Method setOverrides (lines 272-289), argument-validation level: same check
as setVisible; on success list(args) is stored in _overrides. -/
def setOverrides (args : List PyVal) : Except String (List PyVal) :=
  if args.all PyVal.isInt then Except.ok args
  else Except.error "setOverrides() expects a sequence of integers!"

/-- C10: the integer validation of setVisible and setOverrides accepts Python
booleans: any argument list whose members are all bool or int passes the
isinstance check, so the call succeeds and stores exactly those values instead
of raising the non-integer-input error. -/
theorem setters_accept_bools (args : List PyVal)
    (h : ∀ v ∈ args, (∃ n, v = PyVal.intVal n) ∨ (∃ b, v = PyVal.boolVal b)) :
    setVisible args = Except.ok args ∧ setOverrides args = Except.ok args := by
  have hall : args.all PyVal.isInt = true := by
    rw [List.all_eq_true]
    intro v hv
    rcases h v hv with ⟨n, rfl⟩ | ⟨b, rfl⟩ <;> rfl
  constructor <;> simp [setVisible, setOverrides, hall]

/-- Witness for the C10 theorem: the call setVisible(True) succeeds and stores
the boolean True. -/
theorem setters_accept_bools_witness :
    setVisible [PyVal.boolVal true] = Except.ok [PyVal.boolVal true] ∧
    setOverrides [PyVal.boolVal true] = Except.ok [PyVal.boolVal true] :=
  setters_accept_bools [PyVal.boolVal true]
    (by intro v hv; simp at hv; exact Or.inr ⟨true, hv⟩)

end Py

namespace Sync

open Py

/-- Shared synchronization state of a sibling pair: the class-level flag
QInfluenceFilterModel.__pending__ (line 51, one boolean for the whole class,
toggled by beginSelectionUpdate and endSelectionUpdate, lines 331-349) together
with the cached _selectedRows of the two sibling models.  Rows are carried as
Python values so that the isinstance check inside selectInfluences is
observable. -/
structure SyncState where
  pending : Bool
  rowsA : List PyVal
  rowsB : List PyVal
  deriving DecidableEq

/-- Method matchSelection (lines 351-368) with its synchronous feedback loop:
if __pending__ is set the call returns at once; otherwise it sets the flag,
invokes selectInfluences on the sibling with the initiating model cached rows,
and clears the flag afterwards.  A successful sibling selection synchronously
fires the sibling selection-changed signal, whose handler onSelectionChanged
(lines 628-660) caches the new rows and re-enters matchSelection from the
sibling side; the fuel argument bounds that signal chain.  A raise inside
selectInfluences propagates before endSelectionUpdate runs, because the source
uses no try/finally.  The result is (outcome, final state, number of
selectInfluences invocations). -/
def matchSelection (fuel : Nat) (initiatorIsA : Bool) (s : SyncState) :
    Except String Unit × SyncState × Nat :=
  if s.pending then
    (Except.ok (), s, 0)
  else
    let s1 : SyncState := { s with pending := true }
    let rows := if initiatorIsA then s1.rowsA else s1.rowsB
    if rows.all PyVal.isInt then
      let s2 : SyncState :=
        if initiatorIsA then { s1 with rowsB := rows }
        else { s1 with rowsA := rows }
      match fuel with
      | 0 => (Except.ok (), { s2 with pending := false }, 1)
      | Nat.succ f =>
        match matchSelection f (!initiatorIsA) s2 with
        | (Except.ok _, s3, c) => (Except.ok (), { s3 with pending := false }, 1 + c)
        | (Except.error e, s3, c) => (Except.error e, s3, 1 + c)
    else
      (Except.error "selectInfluences() expects a sequence of integers!", s1, 1)
  termination_by fuel

/-- Sequence of later matchSelection attempts: each entry of the chain names
the initiating side, the state is threaded through, and the sibling
selectInfluences invocations are counted across the whole chain. -/
def runMatches (fuel : Nat) : List Bool → SyncState → SyncState × Nat
  | [], s => (s, 0)
  | b :: bs, s =>
    let out := matchSelection fuel b s
    let rest := runMatches fuel bs out.2.1
    (rest.1, out.2.2 + rest.2)

/-- Helper: a matchSelection issued while the pending flag is set is a no-op:
it returns at once, leaves the state unchanged and never reaches the sibling
selectInfluences. -/
theorem matchSelection_pending (fuel : Nat) (b : Bool) (s : SyncState)
    (h : s.pending = true) :
    matchSelection fuel b s = (Except.ok (), s, 0) := by
  unfold matchSelection
  simp [h]

/-- C3: a matchSelection invoked while the process-wide pending flag is set
returns immediately with no sibling selectInfluences call; started from an
idle state with integer cached rows, the whole synchronous A-to-B-to-A chain
performs exactly one sibling selectInfluences call, succeeds, and ends with the
flag cleared - the nested attempt from the mirrored side is swallowed by the
flag, so at most one synchronization is ever in flight. -/
theorem matchSelection_no_cycle (fuel : Nat) (b : Bool) (s : SyncState) :
    (s.pending = true →
      matchSelection fuel b s = (Except.ok (), s, 0)) ∧
    (s.pending = false →
      ((if b then s.rowsA else s.rowsB).all PyVal.isInt) = true →
      (matchSelection fuel b s).1 = Except.ok () ∧
      (matchSelection fuel b s).2.2 = 1 ∧
      (matchSelection fuel b s).2.1.pending = false) := by
  constructor
  · exact matchSelection_pending fuel b s
  · intro hp hok
    cases fuel with
    | zero =>
      unfold matchSelection
      simp only [hp, Bool.false_eq_true, if_false, hok]
      cases b <;> simp
    | succ f =>
      unfold matchSelection
      simp only [hp, Bool.false_eq_true, if_false, hok]
      cases b with
      | false =>
        simp only [Bool.not_false, Bool.false_eq_true, if_false, if_true,
          ite_true, ite_false]
        rw [matchSelection_pending f true
          { pending := true, rowsA := s.rowsB, rowsB := s.rowsB } rfl]
        simp
      | true =>
        simp only [Bool.not_true, if_true, ite_true]
        rw [matchSelection_pending f false
          { pending := true, rowsA := s.rowsA, rowsB := s.rowsA } rfl]
        simp

/-- Witness for the C3 theorem at concrete inputs: with the flag already set
the call is the identity, and a full chain from the idle two-row state makes
exactly one sibling call. -/
theorem matchSelection_no_cycle_witness :
    matchSelection 2 true ⟨true, [PyVal.intVal 1], []⟩ =
      (Except.ok (), ⟨true, [PyVal.intVal 1], []⟩, 0) ∧
    ((matchSelection 2 true ⟨false, [PyVal.intVal 1], []⟩).1 = Except.ok () ∧
      (matchSelection 2 true ⟨false, [PyVal.intVal 1], []⟩).2.2 = 1 ∧
      (matchSelection 2 true ⟨false, [PyVal.intVal 1], []⟩).2.1.pending = false) :=
  ⟨(matchSelection_no_cycle 2 true ⟨true, [PyVal.intVal 1], []⟩).1 rfl,
   (matchSelection_no_cycle 2 true ⟨false, [PyVal.intVal 1], []⟩).2 rfl (by rfl)⟩

/-- C9: when the sibling selectInfluences raises inside matchSelection - here
because the initiating model cached _selectedRows holds a non-integer - the
exception propagates out of matchSelection with the class-level pending flag
still set (the source has no try/finally around the sibling call), and from
that state every later matchSelection, on either model and in any number,
returns immediately, changes nothing and never calls selectInfluences again. -/
theorem matchSelection_error_pending (fuel : Nat) (s : SyncState)
    (hp : s.pending = false) (hbad : (s.rowsA.all PyVal.isInt) = false) :
    matchSelection fuel true s =
      (Except.error "selectInfluences() expects a sequence of integers!",
        { s with pending := true }, 1) ∧
    ∀ chain : List Bool,
      runMatches fuel chain { s with pending := true } =
        ({ s with pending := true }, 0) := by
  constructor
  · unfold matchSelection
    simp [hp, hbad]
  · intro chain
    induction chain with
    | nil => rfl
    | cons b bs ih =>
      unfold runMatches
      rw [matchSelection_pending fuel b _ rfl]
      simp [ih]

/-- Witness for the C9 theorem at a concrete input: a cached string row makes
matchSelection raise with the flag left set, after which a two-step chain of
further attempts from both sides is a no-op. -/
theorem matchSelection_error_pending_witness :
    matchSelection 3 true ⟨false, [PyVal.strVal "L_Arm"], [PyVal.intVal 0]⟩ =
      (Except.error "selectInfluences() expects a sequence of integers!",
        ⟨true, [PyVal.strVal "L_Arm"], [PyVal.intVal 0]⟩, 1) ∧
    runMatches 3 [true, false]
        ⟨true, [PyVal.strVal "L_Arm"], [PyVal.intVal 0]⟩ =
      (⟨true, [PyVal.strVal "L_Arm"], [PyVal.intVal 0]⟩, 0) :=
  ⟨(matchSelection_error_pending 3
      ⟨false, [PyVal.strVal "L_Arm"], [PyVal.intVal 0]⟩ rfl (by rfl)).1,
   (matchSelection_error_pending 3
      ⟨false, [PyVal.strVal "L_Arm"], [PyVal.intVal 0]⟩ rfl (by rfl)).2
      [true, false]⟩

end Sync

namespace Blender

/-- Slice of QVertexBlender state read by activeInfluence and sourceInfluences
(lines 1488-1545): the cached _selectedRows of the influence filter model and
of the weight filter model, the _activeInfluences of the weight filter model,
and the _precision flag. -/
structure UIState where
  influenceSelectedRows : List Nat
  weightSelectedRows : List Nat
  weightActiveInfluences : List Nat
  precision : Bool
  deriving DecidableEq

/-- Method activeInfluence (lines 1488-1505): the first cached selected row of
the influence filter model, raising when that cache is empty. -/
def activeInfluence (s : UIState) : Except String Nat :=
  match s.influenceSelectedRows with
  | [] => Except.error "Unable to get active influence from current selection!"
  | r :: _ => Except.ok r

/-- Method sourceInfluences (lines 1507-1545).  An empty weight-list selection
cache raises.  In precision mode the statement influenceIds = selectedRows
aliases the list cached inside the weight filter model, and the subsequent
influenceIds.remove(activeInfluence) mutates that cached list in place; the
model therefore returns the resulting list together with the updated state,
whose weightSelectedRows is the very list returned.  In non-precision mode a
fresh comprehension is built and no state changes.  Python list.remove deletes
the first occurrence, which is List.erase; erase of an absent element is the
identity, matching the membership guard of the source. -/
def sourceInfluences (s : UIState) : Except String (List Nat × UIState) :=
  if s.weightSelectedRows.isEmpty then
    Except.error "sourceInfluences() expects a valid selection!"
  else if s.precision then
    match activeInfluence s with
    | Except.error e => Except.error e
    | Except.ok active =>
      let ids :=
        if active ∈ s.weightSelectedRows then s.weightSelectedRows.erase active
        else s.weightSelectedRows
      Except.ok (ids, { s with weightSelectedRows := ids })
  else
    Except.ok
      (s.weightActiveInfluences.filter (fun x => decide (x ∉ s.weightSelectedRows)),
        s)

/-- C5: sourceInfluences raises when the weight-list selection cache is empty;
in precision mode it returns the weight-list selected rows with the active
influence removed when present; in non-precision mode it returns the
weight-list activeInfluences with the currently selected rows filtered out. -/
theorem sourceInfluences_spec (s : UIState) :
    (s.weightSelectedRows = [] →
      sourceInfluences s =
        Except.error "sourceInfluences() expects a valid selection!") ∧
    (s.weightSelectedRows ≠ [] → s.precision = true →
      ∀ a rest, s.influenceSelectedRows = a :: rest →
        (sourceInfluences s).map Prod.fst =
          Except.ok (s.weightSelectedRows.erase a)) ∧
    (s.weightSelectedRows ≠ [] → s.precision = false →
      sourceInfluences s =
        Except.ok
          (s.weightActiveInfluences.filter
            (fun x => decide (x ∉ s.weightSelectedRows)), s)) := by
  refine ⟨?_, ?_, ?_⟩
  · intro h
    simp [sourceInfluences, h]
  · intro h hp a rest hact
    have hne : s.weightSelectedRows.isEmpty = false := by
      cases hsel : s.weightSelectedRows with
      | nil => exact absurd hsel h
      | cons x xs => rfl
    by_cases hmem : a ∈ s.weightSelectedRows <;>
      simp [sourceInfluences, hne, hp, activeInfluence, hact, hmem,
        List.erase_of_not_mem, Except.map]
  · intro h hp
    have hne : s.weightSelectedRows.isEmpty = false := by
      cases hsel : s.weightSelectedRows with
      | nil => exact absurd hsel h
      | cons x xs => rfl
    simp [sourceInfluences, hne, hp]

/-- Witness for the C5 theorem at concrete inputs: all three branches
evaluated on small states. -/
theorem sourceInfluences_spec_witness :
    sourceInfluences ⟨[1], [], [0, 1], true⟩ =
      Except.error "sourceInfluences() expects a valid selection!" ∧
    (sourceInfluences ⟨[1], [0, 1], [0, 1], true⟩).map Prod.fst =
      Except.ok [0] ∧
    sourceInfluences ⟨[1], [1], [0, 1, 2, 3], false⟩ =
      Except.ok ([0, 2, 3], ⟨[1], [1], [0, 1, 2, 3], false⟩) :=
  ⟨(sourceInfluences_spec ⟨[1], [], [0, 1], true⟩).1 rfl,
   (sourceInfluences_spec ⟨[1], [0, 1], [0, 1], true⟩).2.1
      (by simp) rfl 1 [] rfl,
   (sourceInfluences_spec ⟨[1], [1], [0, 1, 2, 3], false⟩).2.2 (by simp) rfl⟩

/-- C6 counterexample: with precision mode on, weight-list selected rows
[0, 1] and active influence 1, the call returns normally, yet the cached
weightSelectedRows list has mutated from [0, 1] to [0] through the Python
aliasing of influenceIds = selectedRows followed by remove. -/
theorem sourceInfluences_mutation_counterexample :
    sourceInfluences ⟨[1], [0, 1], [0, 1], true⟩ =
      Except.ok ([0], ⟨[1], [0], [0, 1], true⟩) ∧
    (⟨[1], [0], [0, 1], true⟩ : UIState).weightSelectedRows ≠
      (⟨[1], [0, 1], [0, 1], true⟩ : UIState).weightSelectedRows := by
  refine ⟨by rfl, by simp⟩

/-- C6 (amended): a normally returning sourceInfluences call leaves the
influence-model selection cache, the weight-model active list and the
precision flag unchanged, and leaves the weight-model selection cache
unchanged in non-precision mode; but in precision mode the weight-model
selection cache ends as the original list with the active influence erased (a
genuine mutation exactly when the active influence was among the selected
rows). -/
theorem sourceInfluences_state_effect (s : UIState) (out : List Nat × UIState)
    (h : sourceInfluences s = Except.ok out) :
    out.2.influenceSelectedRows = s.influenceSelectedRows ∧
    out.2.weightActiveInfluences = s.weightActiveInfluences ∧
    out.2.precision = s.precision ∧
    (s.precision = false → out.2 = s) ∧
    (s.precision = true →
      ∀ a rest, s.influenceSelectedRows = a :: rest →
        out.2.weightSelectedRows = s.weightSelectedRows.erase a) := by
  by_cases hemp : s.weightSelectedRows.isEmpty = true
  · simp [sourceInfluences, hemp] at h
  · have hne : s.weightSelectedRows.isEmpty = false := by
      simpa using hemp
    by_cases hp : s.precision = true
    · cases hact : s.influenceSelectedRows with
      | nil =>
        simp [sourceInfluences, hne, hp, activeInfluence, hact] at h
      | cons a rest =>
        by_cases hmem : a ∈ s.weightSelectedRows
        · simp [sourceInfluences, hne, hp, activeInfluence, hact, hmem] at h
          subst h
          refine ⟨rfl, rfl, hp.symm, ?_, ?_⟩
          · intro hf; rw [hp] at hf; cases hf
          · intro _ a2 rest2 hact2
            cases hact2
            rfl
        · simp [sourceInfluences, hne, hp, activeInfluence, hact, hmem] at h
          subst h
          refine ⟨rfl, rfl, hp.symm, ?_, ?_⟩
          · intro hf; rw [hp] at hf; cases hf
          · intro _ a2 rest2 hact2
            cases hact2
            exact (List.erase_of_not_mem hmem).symm
    · have hp' : s.precision = false := by simpa using hp
      simp [sourceInfluences, hne, hp'] at h
      subst h
      exact ⟨rfl, rfl, rfl, fun _ => rfl,
        fun hc => by rw [hp'] at hc; cases hc⟩

/-- Witness for the amended C6 theorem at a concrete input: the precision-mode
call that returns [0] ends with the cached weight-list rows equal to
[0, 1].erase 1. -/
theorem sourceInfluences_state_effect_witness :
    (([0], (⟨[1], [0], [0, 1], true⟩ : UIState)) :
        List Nat × UIState).2.weightSelectedRows =
      ([0, 1] : List Nat).erase 1 :=
  (sourceInfluences_state_effect ⟨[1], [0, 1], [0, 1], true⟩
    ([0], ⟨[1], [0], [0, 1], true⟩) (by rfl)).2.2.2.2 rfl 1 [] rfl

end Blender

namespace Batch

variable {V W F A : Type}

/-- Loop body of the batch edit (setWeights, lines 2035-2047, shared shape with
applyPreset, incrementWeights and scaleWeights): for every (vertexIndex,
falloff) of the soft selection, in order, the per-vertex skin function is
evaluated on the cached snapshot of that vertex, the active influence, the
source influences, the amount and the falloff; a raise anywhere aborts the
loop and propagates, otherwise the results accumulate into the updates map,
keyed by vertex in iteration order. -/
def computeUpdates (vertices : Nat → V)
    (skinSet : V → Nat → List Nat → A → F → Except String W)
    (active : Nat) (sources : List Nat) (amount : A) :
    List (Nat × F) → Except String (List (Nat × W))
  | [] => Except.ok []
  | (v, falloff) :: rest =>
    match skinSet (vertices v) active sources amount falloff with
    | Except.error e => Except.error e
    | Except.ok w =>
      match computeUpdates vertices skinSet active sources amount rest with
      | Except.error e => Except.error e
      | Except.ok ws => Except.ok ((v, w) :: ws)

/-- Method setWeights (lines 2021-2052): activeInfluence and sourceInfluences
are resolved first (either raise aborts everything), the whole updates map is
computed by the loop, and only then is skin.applyWeights called once with the
complete map.  The second component records every applyWeights invocation with
its argument; an exception anywhere earlier leaves that record empty. -/
def setWeights (resolveActive : Except String Nat)
    (resolveSources : Except String (List Nat)) (amount : A)
    (softSelection : List (Nat × F)) (vertices : Nat → V)
    (skinSet : V → Nat → List Nat → A → F → Except String W) :
    Except String (List (Nat × W)) × List (List (Nat × W)) :=
  match resolveActive with
  | Except.error e => (Except.error e, [])
  | Except.ok active =>
    match resolveSources with
    | Except.error e => (Except.error e, [])
    | Except.ok sources =>
      match computeUpdates vertices skinSet active sources amount softSelection with
      | Except.error e => (Except.error e, [])
      | Except.ok updates => (Except.ok updates, [updates])

/-- Helper: a successful loop yields one update per soft-selection entry, keyed
by the same vertices in the same order. -/
theorem computeUpdates_keys (vertices : Nat → V)
    (skinSet : V → Nat → List Nat → A → F → Except String W)
    (active : Nat) (sources : List Nat) (amount : A) :
    ∀ (soft : List (Nat × F)) (updates : List (Nat × W)),
      computeUpdates vertices skinSet active sources amount soft =
        Except.ok updates →
      updates.map Prod.fst = soft.map Prod.fst := by
  intro soft
  induction soft with
  | nil =>
    intro updates h
    simp [computeUpdates] at h
    subst h
    rfl
  | cons p rest ih =>
    intro updates h
    match p with
    | (v, falloff) =>
      unfold computeUpdates at h
      cases hs : skinSet (vertices v) active sources amount falloff with
      | error e => rw [hs] at h; cases h
      | ok w =>
        rw [hs] at h
        cases hrest : computeUpdates vertices skinSet active sources amount rest with
        | error e => rw [hrest] at h; cases h
        | ok ws =>
          rw [hrest] at h
          cases h
          simpa using ih ws hrest

/-- Helper: a raise while computing any soft-selection entry makes the whole
loop raise. -/
theorem computeUpdates_error (vertices : Nat → V)
    (skinSet : V → Nat → List Nat → A → F → Except String W)
    (active : Nat) (sources : List Nat) (amount : A) :
    ∀ (soft : List (Nat × F)) (v : Nat) (falloff : F) (e : String),
      (v, falloff) ∈ soft →
      skinSet (vertices v) active sources amount falloff = Except.error e →
      ∃ eAll, computeUpdates vertices skinSet active sources amount soft =
        Except.error eAll := by
  intro soft
  induction soft with
  | nil => intro v falloff e h; cases h
  | cons p rest ih =>
    intro v falloff e hmem hfail
    match p with
    | (v0, f0) =>
      cases hs : skinSet (vertices v0) active sources amount f0 with
      | error e0 => exact ⟨e0, by unfold computeUpdates; rw [hs]⟩
      | ok w =>
        rcases List.mem_cons.mp hmem with hhead | htail
        · cases hhead
          rw [hfail] at hs
          cases hs
        · rcases ih v falloff e htail hfail with ⟨eAll, hAll⟩
          exact ⟨eAll, by unfold computeUpdates; rw [hs, hAll]⟩

/-- C4: every batch edit collects all per-vertex weight vectors into one
updates map and performs exactly one applyWeights call carrying an entry for
every soft-selected vertex; and whenever resolving the influences or computing
any single vertex raises, the batch raises and applyWeights is never invoked,
so no partial map is ever applied. -/
theorem setWeights_atomicity (resolveActive : Except String Nat)
    (resolveSources : Except String (List Nat)) (amount : A)
    (softSelection : List (Nat × F)) (vertices : Nat → V)
    (skinSet : V → Nat → List Nat → A → F → Except String W) :
    (∀ updates,
      (setWeights resolveActive resolveSources amount softSelection vertices
          skinSet).1 = Except.ok updates →
      (setWeights resolveActive resolveSources amount softSelection vertices
          skinSet).2 = [updates] ∧
        updates.map Prod.fst = softSelection.map Prod.fst) ∧
    (∀ e,
      (setWeights resolveActive resolveSources amount softSelection vertices
          skinSet).1 = Except.error e →
      (setWeights resolveActive resolveSources amount softSelection vertices
          skinSet).2 = []) ∧
    (∀ active sources v falloff e,
      resolveActive = Except.ok active →
      resolveSources = Except.ok sources →
      (v, falloff) ∈ softSelection →
      skinSet (vertices v) active sources amount falloff = Except.error e →
      ∃ eAll,
        (setWeights resolveActive resolveSources amount softSelection vertices
            skinSet).1 = Except.error eAll ∧
        (setWeights resolveActive resolveSources amount softSelection vertices
            skinSet).2 = []) := by
  refine ⟨?_, ?_, ?_⟩
  · intro updates h
    cases resolveActive with
    | error e => simp [setWeights] at h
    | ok active =>
      cases resolveSources with
      | error e => simp [setWeights] at h
      | ok sources =>
        cases hc : computeUpdates vertices skinSet active sources amount
            softSelection with
        | error e => simp [setWeights, hc] at h
        | ok ws =>
          have h2 : ws = updates := by simpa [setWeights, hc] using h
          subst h2
          constructor
          · simp [setWeights, hc]
          · exact computeUpdates_keys vertices skinSet active sources amount
              softSelection _ hc
  · intro e h
    cases resolveActive with
    | error e0 => simp [setWeights]
    | ok active =>
      cases resolveSources with
      | error e0 => simp [setWeights]
      | ok sources =>
        cases hc : computeUpdates vertices skinSet active sources amount
            softSelection with
        | error e0 => simp [setWeights, hc]
        | ok ws => simp [setWeights, hc] at h
  · intro active sources v falloff e hA hS hmem hfail
    subst hA
    subst hS
    rcases computeUpdates_error vertices skinSet active sources amount
      softSelection v falloff e hmem hfail with ⟨eAll, hAll⟩
    exact ⟨eAll, by simp [setWeights, hAll]⟩

/-- Witness for the C4 theorem at concrete inputs: a three-vertex soft
selection whose middle vertex raises produces an error and an empty
applyWeights record, exactly one call happens on the all-ok variant, and its
map covers vertices [1, 2, 3]. -/
theorem setWeights_atomicity_witness :
    (∃ eAll,
      (setWeights (V := String) (W := String) (F := Nat) (A := Nat)
          (Except.ok 0) (Except.ok [5]) 10 [(1, 1), (2, 0), (3, 1)]
          (fun _ => "snapshot")
          (fun _ _ _ _ falloff =>
            if falloff = 0 then Except.error "compute failed"
            else Except.ok "updated")).1 = Except.error eAll ∧
      (setWeights (V := String) (W := String) (F := Nat) (A := Nat)
          (Except.ok 0) (Except.ok [5]) 10 [(1, 1), (2, 0), (3, 1)]
          (fun _ => "snapshot")
          (fun _ _ _ _ falloff =>
            if falloff = 0 then Except.error "compute failed"
            else Except.ok "updated")).2 = []) ∧
    ((setWeights (V := String) (W := String) (F := Nat) (A := Nat)
        (Except.ok 0) (Except.ok [5]) 10 [(1, 1), (2, 1), (3, 1)]
        (fun _ => "snapshot")
        (fun _ _ _ _ _ => Except.ok "updated")).2 =
      [[(1, "updated"), (2, "updated"), (3, "updated")]] ∧
      ([(1, "updated"), (2, "updated"), (3, "updated")] :
          List (Nat × String)).map Prod.fst =
        ([(1, 1), (2, 1), (3, 1)] : List (Nat × Nat)).map Prod.fst) :=
  ⟨(setWeights_atomicity (Except.ok 0) (Except.ok [5]) 10
      [(1, 1), (2, 0), (3, 1)] (fun _ => "snapshot")
      (fun _ _ _ _ falloff =>
        if falloff = 0 then Except.error "compute failed"
        else Except.ok "updated")).2.2 0 [5] 2 0 "compute failed" rfl rfl
      (by simp) (by simp),
   (setWeights_atomicity (Except.ok 0) (Except.ok [5]) 10
      [(1, 1), (2, 1), (3, 1)] (fun _ => "snapshot")
      (fun _ _ _ _ _ => Except.ok "updated")).1
      [(1, "updated"), (2, "updated"), (3, "updated")] (by rfl)⟩

end Batch

namespace Glob

/-- Glob matching as Python fnmatch.fnmatch performs it on a POSIX host, where
os.path.normcase is the identity, so the comparison is case-sensitive: the
star matches any run of characters, the question mark matches exactly one
character, every other character matches itself, and the whole pattern is
anchored to the whole string (fnmatch.translate appends an end anchor).
Character classes in brackets are not used by any pattern of this development
and are not modelled.  The first argument is structural fuel: every step
shrinks pattern plus string, so pattern length plus string length plus one
suffices; the fuel keeps the recursion structural and hence kernel-reducible. -/
def globMatchAux : Nat → List Char → List Char → Bool
  | 0, _, _ => false
  | Nat.succ n, p, s =>
    match p, s with
    | [], rest => rest.isEmpty
    | '*' :: ps, [] => globMatchAux n ps []
    | '*' :: ps, c :: cs =>
      globMatchAux n ps (c :: cs) || globMatchAux n ('*' :: ps) cs
    | '?' :: ps, _ :: cs => globMatchAux n ps cs
    | _ :: _, [] => false
    | pc :: ps, c :: cs => pc == c && globMatchAux n ps cs

/-- Call fnmatch.fnmatch(name, pattern) with sufficient fuel. -/
def fnmatch (name pattern : String) : Bool :=
  globMatchAux (pattern.data.length + name.data.length + 1) pattern.data
    name.data

/-- Method filterRowsByPattern (lines 601-626): every row of the source model
is visited in row order, its column-0 text is matched against the pattern with
fnmatch.fnmatch, and the rows whose text matches are returned; nothing in the
method writes any filter state, it only reads the source model items. -/
def filterRowsByPattern (labels : List String) (pattern : String) :
    List Nat :=
  (List.range labels.length).filter
    (fun row => fnmatch (labels.getD row "") pattern)

/-- C8: filterRowsByPattern returns exactly the row ids whose label matches
the pattern as a full-string-anchored, case-sensitive glob, in ascending row
order; on labels [L_Arm, Spine, R_Arm] the pattern *Arm* selects rows
[0, 2], the lowercase pattern *arm* matches nothing, and the unanchored
fragment Arm alone does not match L_Arm. -/
theorem filterRowsByPattern_spec (labels : List String) (pattern : String) :
    (∀ row : Nat,
      row ∈ filterRowsByPattern labels pattern ↔
        row < labels.length ∧ fnmatch (labels.getD row "") pattern = true) ∧
    (filterRowsByPattern labels pattern).Pairwise (· < ·) ∧
    filterRowsByPattern ["L_Arm", "Spine", "R_Arm"] "*Arm*" = [0, 2] ∧
    fnmatch "L_Arm" "*arm*" = false ∧
    fnmatch "L_Arm" "Arm" = false := by
  refine ⟨?_, ?_, by decide, by decide, by decide⟩
  · intro row
    simp [filterRowsByPattern, List.mem_filter, List.mem_range]
  · exact List.Pairwise.filter _ (List.pairwise_lt_range _)

end Glob

end VertexBlender
